import Mathlib

set_option linter.unusedVariables false

/-!
Shallow embedding of the native accessor layer (src/src/accessors.cc) of the
v8-git-mirror repository: array length get/set with dual numeric coercion,
string length, script metadata projection with the lazy line-ends cache,
function prototype lazy materialization, function length with on-demand
compilation, call-stack introspection for function arguments and caller,
and the module export accessors.  External collaborators (Execution::ToNumber,
Execution::ToUint32, Script::InitLineEnds, Compiler::EnsureCompiled, the
deoptimizer slot resolver) are modelled from the spec, as noted on each
definition.
-/

/-- A JavaScript number (a C++ double in the source).  Modelled exactly where
the accessor layer needs it: NaN, the two infinities, and finite values as
rationals (every finite double is rational; rounding plays no role in the
properties proved here). -/
inductive JSNum where
  | nan
  | inf
  | neginf
  | rat (q : ℚ)
deriving DecidableEq

/-- Truncation toward zero of a rational, as in the ToUint32 algorithm
(sign(n) * floor(abs(n))).  Written over nonnegative operands so every
integer-division convention agrees. -/
def truncJS (q : ℚ) : Int :=
  if 0 ≤ q.num then q.num / (q.den : Int) else -((-q.num) / (q.den : Int))

/-- Modelled from the spec: the canonical unsigned-32-bit coercion of a number
(the numeric core of Execution::ToUint32, an external collaborator): NaN and
the infinities map to 0, finite values truncate toward zero and reduce modulo
2^32. -/
def u32OfNum : JSNum → Nat
  | .nan => 0
  | .inf => 0
  | .neginf => 0
  | .rat q => ((truncJS q).emod (2 ^ 32)).toNat

/-- C++ double equality (`uint32_v->Number() == number_v->Number()` in
Accessors::ArraySetLength): NaN compares unequal to everything, including
itself. -/
def numEq : JSNum → JSNum → Bool
  | .nan, _ => false
  | _, .nan => false
  | .inf, .inf => true
  | .neginf, .neginf => true
  | .rat p, .rat q => p == q
  | _, _ => false

/-- A heap value as seen by the accessor layer: a primitive number, a
primitive string, a JSValue wrapper object (carrying whether its map is the
native context's initial Number map), or some other object. -/
inductive JSVal where
  | num (n : JSNum)
  | str (s : List Char)
  | jsvalue (initialNumberMap : Bool) (inner : JSVal)
  | other
deriving DecidableEq

/-- `Object::IsNumber`: Smi or heap number. -/
def JSVal.isNumber : JSVal → Bool
  | .num _ => true
  | _ => false

/-- `Object::IsJSValue`: a wrapper object. -/
def JSVal.isJSValue : JSVal → Bool
  | .jsvalue _ _ => true
  | _ => false

/-- `Object::IsString`. -/
def JSVal.isString : JSVal → Bool
  | .str _ => true
  | _ => false

/-- Modelled from the spec: decimal-digit string parsing used by the
generic-number coercion collaborator; strings of plain digits denote that
natural number, anything else is left to the NaN case by the caller. -/
def parseDigits : List Char → Nat → Option Nat
  | [], acc => some acc
  | c :: rest, acc =>
    if c.isDigit then parseDigits rest (acc * 10 + (c.toNat - 48)) else none

/-- Modelled from the spec: the canonical generic-number coercion
(Execution::ToNumber, an external collaborator).  Numbers are returned
unchanged, wrapper objects convert via their wrapped primitive, simple digit
strings parse, the empty string is 0, and everything else is NaN. -/
def toNumber : JSVal → JSNum
  | .num n => n
  | .str [] => .rat 0
  | .str (c :: rest) =>
    match parseDigits (c :: rest) 0 with
    | some n => .rat (mkRat (Int.ofNat n) 1)
    | none => .nan
  | .jsvalue _ inner => toNumber inner
  | .other => .nan

/-- Modelled from the spec: Execution::ToUint32 (external collaborator) is the
generic-number coercion followed by the unsigned-32-bit reduction. -/
def toUint32 (v : JSVal) : JSNum :=
  .rat (mkRat (Int.ofNat (u32OfNum (toNumber v))) 1)

/-- One observable coercion event performed by the array-length setter; the
argument records which value the coercion ran on (conversions on objects can
have observable side effects, so count and order matter). -/
inductive CoercionOp where
  | u32Op (arg : JSVal)
  | numOp (arg : JSVal)
deriving DecidableEq

/-- Execution::ToUint32 together with its observable coercion event. -/
def execToUint32 (v : JSVal) : JSNum × CoercionOp :=
  (toUint32 v, .u32Op v)

/-- Execution::ToNumber together with its observable coercion event. -/
def execToNumber (v : JSVal) : JSNum × CoercionOp :=
  (toNumber v, .numOp v)

/-- Accessors::FlattenNumber: a JSValue whose map is the native context's
initial Number map is unwrapped to its primitive value; numbers and
non-wrapper values pass through unchanged. -/
def FlattenNumber (v : JSVal) : JSVal :=
  if v.isNumber || !v.isJSValue then v
  else
    match v with
    | .jsvalue m inner => if m then inner else v
    | _ => v

/-- Whether a value is a JSValue wrapper carrying the initial Number map. -/
def isInitialNumberWrapper : JSVal → Bool
  | .jsvalue true _ => true
  | _ => false

/-- The receiver of the array length accessor: whether it is a true JSArray,
its current element-storage length, and (for the non-array path) the own
`length` data property the setter may define. -/
structure ArrReceiver where
  isArray : Bool
  length : Nat
  ownLengthProp : Option JSVal
deriving DecidableEq

/-- The error kinds the accessor layer can raise: the range violation of an
invalid array length, an ordinary type error (never raised by this layer's
length setter), and the named reference error of an uninitialized module
binding. -/
inductive ErrKind where
  | rangeViolation
  | typeErr
  | refErr (name : List Char)
deriving DecidableEq

/-- The outcome of Accessors::ArraySetLength. -/
inductive SetLenResult where
  | definedOwn (v : JSVal)
  | ok (newLen : Nat)
  | thrown (e : ErrKind)
deriving DecidableEq

/-- Accessors::ArraySetLength.  A non-array receiver (which merely inherits
the accessor) gets an ordinary own `length` data property instead of a
recursive accessor call.  A true array receiver flattens Number wrappers,
performs the ToUint32 coercion and then the ToNumber coercion, raises a
RangeError (`invalid_array_length`) when the two results are numerically
unequal, and otherwise commits the coerced unsigned value as the new length
(JSArray::SetElementsLength, the storage-truncating collaborator, is modelled
from the spec as writing the new length).  The third component is the trace of
coercion events performed. -/
def ArraySetLength (r : ArrReceiver) (value : JSVal) :
    SetLenResult × ArrReceiver × List CoercionOp :=
  if !r.isArray then
    (.definedOwn value, { r with ownLengthProp := some value }, [])
  else
    let v := FlattenNumber value
    let u := execToUint32 v
    let n := execToNumber v
    if numEq u.1 n.1 then
      (.ok (u32OfNum (toNumber v)),
       { r with length := u32OfNum (toNumber v) }, [u.2, n.2])
    else
      (.thrown .rangeViolation, r, [u.2, n.2])

/-- Accessors::ArrayGetLength: traverse the prototype chain (the receiver
followed by its prototypes) until a JSArray is found; return its length, or
Smi 0 when the chain holds no array. -/
def ArrayGetLength (chain : List ArrReceiver) : Nat :=
  match chain.find? (·.isArray) with
  | none => 0
  | some a => a.length

/-- The one-level JSValue unwrap performed by Accessors::StringLengthGetter
(`if (value->IsJSValue()) value = JSValue::cast(value)->value()`). -/
def unwrapJSValue : JSVal → JSVal
  | .jsvalue _ inner => inner
  | v => v

/-- Accessors::StringLengthGetter: unwrap a wrapper object, then return the
string's length, or 0 for any non-string receiver (WebKit compatibility;
no coercion, no error). -/
def StringLengthGetter (receiver : JSVal) : Nat :=
  match unwrapJSValue receiver with
  | .str s => s.length
  | _ => 0

/-- Accessors::StringLengthSetter: its body is UNREACHABLE(), a debug-only
assertion macro that expands to nothing in release builds; no error is
raised and the receiver is untouched. -/
def StringLengthSetter (receiver : JSVal) (value : JSVal) :
    Option ErrKind × JSVal :=
  (none, receiver)

/-- Accessors::ReadOnlySetAccessor: per ECMA-262 8.6.2.2 a write to a
read-only property is silently ignored; the callback returns the written
value and touches no engine state (it is the setter of the FunctionLength,
FunctionName, FunctionArguments and FunctionCaller descriptors). -/
def ReadOnlySetAccessor (σ : Type) (st : σ) (value : JSVal) : JSVal × σ :=
  (value, st)

/-- The state of a compilation unit (a Script object) as the accessor layer
sees it: the source text, the lazily memoized line-ends cache, and two of the
directly projected metadata fields. -/
structure ScriptSt where
  source : List Char
  lineEnds : Option (List Nat)
  id : Nat
  columnOffset : Int
deriving DecidableEq

/-- Modelled from the spec: the scan of the source text for line-terminator
offsets performed by the Script::InitLineEnds collaborator. -/
def lineEndsScan : List Char → Nat → List Nat
  | [], _ => []
  | c :: rest, i =>
    if c = '\n' then i :: lineEndsScan rest (i + 1) else lineEndsScan rest (i + 1)

/-- Modelled from the spec: Script::InitLineEnds (external collaborator)
computes the line-ends sequence on first request and memoizes it on the
script; later calls find the cache set and do nothing. -/
def InitLineEnds (s : ScriptSt) : ScriptSt :=
  match s.lineEnds with
  | some _ => s
  | none => { s with lineEnds := some (lineEndsScan s.source 0) }

/-- Accessors::ScriptLineEndsGetter: ensure the line-ends cache is set, then
return the cached sequence (exposed to JS as a fresh array over a
copy-on-write backing store, so callers cannot mutate the cache). -/
def ScriptLineEndsGetter (s : ScriptSt) : List Nat × ScriptSt :=
  let s2 := InitLineEnds s
  (s2.lineEnds.getD [], s2)

/-- Accessors::ScriptColumnOffsetGetter: a direct field projection under a
no-allocation scope; no engine state changes. -/
def ScriptColumnOffsetGetter (s : ScriptSt) : Int × ScriptSt :=
  (s.columnOffset, s)

/-- Accessors::ScriptIdGetter: a direct field projection under a
no-allocation scope; no engine state changes. -/
def ScriptIdGetter (s : ScriptSt) : Nat × ScriptSt :=
  (s.id, s)

/-- Accessors::ScriptColumnOffsetSetter: its body is UNREACHABLE(), a
debug-only assertion macro that expands to nothing in release builds; no
error is raised and the script is untouched (the other script metadata
setters are identical). -/
def ScriptColumnOffsetSetter (s : ScriptSt) (value : JSVal) :
    Option ErrKind × ScriptSt :=
  (none, s)

/-- An object on a prototype chain as seen by the function prototype
accessor: whether it is a JSFunction, whether it should have a prototype
(constructibility), and its prototype slot (valid when `hasProto`). -/
structure FnObj where
  isFunction : Bool
  shouldHaveProto : Bool
  hasProto : Bool
  protoVal : Nat
deriving DecidableEq, Inhabited

/-- The engine state the function prototype accessor operates on: the
receiver's prototype chain (receiver first) and the allocator's next fresh
object id. -/
structure ProtoState where
  chain : List FnObj
  nextId : Nat
deriving DecidableEq

/-- The outcome of the function prototype getter: the undefined sentinel,
a prototype object (by id), or the failed internal assertion of the
constructible-ancestor walk. -/
inductive ProtoResult where
  | undef
  | crash
  | obj (id : Nat)
deriving DecidableEq

/-- The core of Accessors::FunctionGetPrototype past the first
FindInstanceOf: walk the chain to the first function that should have a
prototype (the source's while loop re-running FindInstanceOf on each
non-constructible function's prototype visits exactly the chain's functions
in order); if it has none yet, materialize a fresh prototype object
(factory->NewFunctionPrototype + JSFunction::SetPrototype, modelled from the
spec as allocating the next fresh id) and store it.  Returns the prototype
id, the updated chain and the updated allocator counter; `none` is the
source's violated ASSERT when no constructible function exists. -/
def findMaterialize (nextId : Nat) : List FnObj → Option (Nat × List FnObj × Nat)
  | [] => none
  | o :: rest =>
    if o.isFunction && o.shouldHaveProto then
      if o.hasProto then some (o.protoVal, o :: rest, nextId)
      else some (nextId, { o with hasProto := true, protoVal := nextId } :: rest, nextId + 1)
    else
      (findMaterialize nextId rest).map (fun r => (r.1, o :: r.2.1, r.2.2))

/-- Accessors::FunctionGetPrototype: FindInstanceOf<JSFunction> over the
receiver's chain returns undefined when no function is found; otherwise the
constructible-ancestor walk of `findMaterialize` yields the (lazily
materialized) prototype. -/
def FunctionGetPrototype (st : ProtoState) : ProtoResult × ProtoState :=
  if st.chain.any (·.isFunction) then
    match findMaterialize st.nextId st.chain with
    | none => (.crash, st)
    | some r => (.obj r.1, ⟨r.2.1, r.2.2⟩)
  else (.undef, st)

/-- An object on a prototype chain as seen by the function length accessor:
whether it is a JSFunction, whether its shared info is already compiled,
whether on-demand compilation would succeed, and the authoritative
post-compilation parameter count. -/
structure LFn where
  isFunction : Bool
  compiled : Bool
  compileOk : Bool
  len : Nat
deriving DecidableEq, Inhabited

/-- The outcome of the function length getter: a Smi value or a propagated
compilation failure (Failure::Exception). -/
inductive LenResult where
  | val (n : Nat)
  | exn
deriving DecidableEq

/-- Modelled from the spec: Compiler::EnsureCompiled (external collaborator)
marks the function compiled; after it succeeds the shared length is
authoritative. -/
def compileFn (f : LFn) : LFn :=
  { f with compiled := true }

/-- Accessors::FunctionGetLength: FindInstanceOf<JSFunction> over the
receiver's chain (Smi 0 when no function is found); an already compiled
function's shared length is returned directly, otherwise the function is
compiled on demand, propagating compilation failure as an exception.  The
updated chain is returned alongside. -/
def FunctionGetLength : List LFn → LenResult × List LFn
  | [] => (.val 0, [])
  | f :: rest =>
    if f.isFunction then
      if f.compiled then (.val f.len, f :: rest)
      else if f.compileOk then (.val f.len, compileFn f :: rest)
      else (.exn, f :: rest)
    else
      let r := FunctionGetLength rest
      (r.1, f :: r.2)

/-- A JSFunction as seen by the caller accessor: its identity, whether the
receiver-chain entry is a function at all, and the shared-info flags the
censoring policy reads. -/
structure CFn where
  id : Nat
  isFunction : Bool
  native : Bool
  isToplevel : Bool
  isBuiltin : Bool
  bound : Bool
  strict : Bool
deriving DecidableEq, Inhabited

/-- FindInstanceOf<JSFunction> over a receiver chain. -/
def findFn (chain : List CFn) : Option CFn :=
  chain.find? (·.isFunction)

/-- FrameFunctionIterator::Find: consume logical activations (the stack is
listed in iteration order, innermost first, each physical frame's inlined
functions innermost first) until the given function is reached; the remaining
iterator stream follows it.  `none` when the iterator ends without finding
it. -/
def restAfter (fid : Nat) : List CFn → Option (List CFn)
  | [] => none
  | g :: rest => if g.id = fid then some rest else restAfter fid rest

/-- The source's `do { caller = it.next(); } while (caller->is_toplevel())`
loop: the first non-toplevel activation and the stream after it; `none` when
`it.next()` returns NULL first. -/
def skipToplevel : List CFn → Option (CFn × List CFn)
  | [] => none
  | c :: rest => if c.isToplevel then skipToplevel rest else some (c, rest)

/-- The source's built-in skipping loop
(`while (potential_caller != NULL && potential_caller->IsBuiltin())`):
`caller` trails one step behind `potential`, which is fed by `it.next()`
from the stream.  Returns the final `caller` and `potential_caller`. -/
def skipBuiltinRun (caller : CFn) (potential : Option CFn) (rest : List CFn) :
    CFn × Option CFn :=
  match potential with
  | none => (caller, none)
  | some p =>
    if p.isBuiltin then
      match rest with
      | [] => (p, none)
      | q :: qs => skipBuiltinRun p (some q) qs
    else (caller, some p)

/-- The caller resolution of Accessors::FunctionGetCaller before the
bound/strict censorship: `none` when the function has no activation on the
stack, `some none` when the walk ends at NULL, `some (some c)` with the
resolved caller otherwise. -/
def resolveCaller (fid : Nat) (stack : List CFn) : Option (Option CFn) :=
  match restAfter fid stack with
  | none => none
  | some rest =>
    match skipToplevel rest with
    | none => some none
    | some cr =>
      match skipBuiltinRun cr.1 (some cr.1) cr.2 with
      | (c, potential) =>
        some (some (if !c.native && potential.isSome then potential.getD c else c))

/-- The outcome of the caller getter: the undefined sentinel (no function on
the receiver chain), the null sentinel, or an exposed caller.  The source has
no throw path here. -/
inductive CallerResult where
  | undef
  | nullv
  | fn (c : CFn)
deriving DecidableEq

/-- Accessors::FunctionGetCaller: undefined when the receiver chain holds no
function; null for a native holder; otherwise resolve the caller from the
frame walk and censor it — a bound caller and a strict-mode caller are
replaced by the null sentinel. -/
def FunctionGetCaller (chain : List CFn) (stack : List CFn) : CallerResult :=
  match findFn chain with
  | none => .undef
  | some holder =>
    if holder.native then .nullv
    else
      match resolveCaller holder.id stack with
      | none => .nullv
      | some none => .nullv
      | some (some caller) =>
        if caller.bound then .nullv
        else if caller.strict then .nullv
        else .fn caller

/-- A JSFunction as seen by the arguments accessor. -/
structure AFn where
  id : Nat
  isFunction : Bool
  native : Bool
deriving DecidableEq, Inhabited

/-- The state of a function's local `arguments` stack slot in a
non-optimized frame: absent, still holding the arguments marker, or an
already materialized arguments object (by id). -/
inductive ArgVar where
  | marker
  | val (v : Nat)
deriving DecidableEq

/-- One physical JavaScript frame as the arguments accessor walks it:
the logical functions folded into it (index 0 outermost, as
JavaScriptFrame::GetFunctions lists them), whether the frame is optimized,
the `arguments` local slot, the per-inlined-index argument values the
deoptimizer slot resolver would reconstruct (modelled from the spec), and
the parameter slots of the frame AdvanceToArgumentsFrame reaches. -/
structure AFrame where
  functions : List Nat
  isOptimized : Bool
  argVar : Option ArgVar
  inlinedArgs : List (List Nat)
  params : List Nat
deriving DecidableEq

/-- The source's inner loop `for (i = functions.length() - 1; i >= 0; i--)`
stops at the highest index holding the given function. -/
def lastIdxOf (fid : Nat) : List Nat → Option Nat
  | [] => none
  | x :: rest =>
    match lastIdxOf fid rest with
    | some i => some (i + 1)
    | none => if x = fid then some 0 else none

/-- The outcome of the arguments getter: the undefined sentinel (no function
on the receiver chain), the null sentinel, a synthetic arguments object
reconstructed for an inlined activation, the frame's already materialized
arguments variable, or a fresh arguments object copied from the actual
parameter slots.  The source has no throw path here. -/
inductive ArgsResult where
  | undef
  | nullv
  | inlined (args : List Nat)
  | storedArgs (v : Nat)
  | fresh (args : List Nat)
deriving DecidableEq

/-- The body of the source's per-frame search in
Accessors::FunctionGetArguments: `none` when the frame holds no activation of
the function; otherwise the inlined reconstruction (highest matching index
positive), the initialized `arguments` local of a non-optimized frame, or the
fresh arguments object materialized from the actual parameter slots. -/
def argsFromFrame (fid : Nat) (fr : AFrame) : Option ArgsResult :=
  match lastIdxOf fid fr.functions with
  | none => none
  | some i =>
    if 0 < i then some (.inlined (fr.inlinedArgs.getD i []))
    else
      match fr.isOptimized, fr.argVar with
      | false, some (.val v) => some (.storedArgs v)
      | _, _ => some (.fresh fr.params)

/-- The frame iteration of Accessors::FunctionGetArguments: the first frame
holding an activation of the function decides the result; when no frame does,
the getter falls through to the null sentinel. -/
def argsLoop (fid : Nat) : List AFrame → ArgsResult
  | [] => .nullv
  | fr :: rest =>
    match argsFromFrame fid fr with
    | some r => r
    | none => argsLoop fid rest

/-- Accessors::FunctionGetArguments: undefined when the receiver chain holds
no function; null for a native holder; otherwise the frame walk. -/
def FunctionGetArguments (chain : List AFn) (stack : List AFrame) : ArgsResult :=
  match chain.find? (·.isFunction) with
  | none => .undef
  | some holder =>
    if holder.native then .nullv
    else argsLoop holder.id stack

/-- A module lexical slot: the uninitialized hole marker or a value. -/
inductive MSlot where
  | hole
  | val (v : Nat)
deriving DecidableEq

/-- `Context::get`: read a slot by fixed index (out-of-range reads do not
occur; they are mapped to the hole). -/
def getSlot : List MSlot → Nat → MSlot
  | [], _ => .hole
  | x :: _, 0 => x
  | _ :: rest, i + 1 => getSlot rest i

/-- `Context::set`: write a slot by fixed index. -/
def setSlot : List MSlot → Nat → MSlot → List MSlot
  | [], _, _ => []
  | _ :: rest, 0, s => s :: rest
  | x :: rest, i + 1, s => x :: setSlot rest i s

/-- The outcome of ModuleGetExport: a scheduled named reference error or the
slot's value. -/
inductive ModGetResult where
  | thrown (e : ErrKind)
  | ret (v : Nat)
deriving DecidableEq

/-- The outcome of ModuleSetExport. -/
inductive ModSetResult where
  | thrown (e : ErrKind)
  | ok
deriving DecidableEq

/-- ModuleGetExport: read the module context's slot at the accessor's fixed
index; the hole marker schedules a `not_defined` reference error carrying the
property name, any other value is returned. -/
def ModuleGetExport (slots : List MSlot) (slot : Nat) (name : List Char) :
    ModGetResult :=
  match getSlot slots slot with
  | .hole => .thrown (.refErr name)
  | .val v => .ret v

/-- ModuleSetExport: the same hole check on the old value schedules the same
`not_defined` reference error, leaving the context untouched; otherwise the
slot is overwritten. -/
def ModuleSetExport (slots : List MSlot) (slot : Nat) (name : List Char)
    (v : Nat) : ModSetResult × List MSlot :=
  match getSlot slots slot with
  | .hole => (.thrown (.refErr name), slots)
  | .val _ => (.ok, setSlot slots slot (.val v))

/-- The declared attributes of a module export binding (the bit the accessor
factory reads). -/
structure PropAttr where
  readOnly : Bool
deriving DecidableEq

/-- The AccessorInfo record Accessors::MakeModuleExport builds. -/
structure AccessorInfoM where
  name : List Char
  data : Nat
  allCanRead : Bool
  allCanWrite : Bool
  hasGetter : Bool
  hasSetter : Bool
deriving DecidableEq

/-- Accessors::MakeModuleExport: an accessor record named after the export,
carrying the slot index as aux data; the getter is always installed, the
setter only when the attributes do not include ReadOnly. -/
def MakeModuleExport (name : List Char) (index : Nat) (attrs : PropAttr) :
    AccessorInfoM :=
  { name := name, data := index, allCanRead := true, allCanWrite := true,
    hasGetter := true, hasSetter := !attrs.readOnly }

/-- The fields of a chain object the function prototype getter never
writes. -/
def fnCore (o : FnObj) : Bool × Bool :=
  (o.isFunction, o.shouldHaveProto)

/-- The fields of a chain object the function length getter never writes. -/
def lenCore (f : LFn) : Bool × Bool × Nat :=
  (f.isFunction, f.compileOk, f.len)

lemma flattenNumber_eq_self (v : JSVal) (h : isInitialNumberWrapper v = false) :
    FlattenNumber v = v := by
  cases v with
  | num n => rfl
  | str s => rfl
  | other => rfl
  | jsvalue m inner =>
    cases m with
    | false => rfl
    | true => simp [isInitialNumberWrapper] at h

lemma arraySetLength_trace (r : ArrReceiver) (v : JSVal) (h : r.isArray = true) :
    (ArraySetLength r v).2.2 =
      [.u32Op (FlattenNumber v), .numOp (FlattenNumber v)] := by
  simp only [ArraySetLength, h, Bool.not_true, Bool.false_eq_true, if_false]
  split <;> rfl

lemma findMaterialize_stable (l : List FnObj) :
    ∀ (n p : Nat) (l2 : List FnObj) (n2 : Nat),
      findMaterialize n l = some (p, l2, n2) →
      findMaterialize n2 l2 = some (p, l2, n2) := by
  induction l with
  | nil => intro n p l2 n2 h; simp [findMaterialize] at h
  | cons o rest ih =>
    intro n p l2 n2 h
    by_cases hc : (o.isFunction && o.shouldHaveProto) = true
    · rw [findMaterialize, if_pos hc] at h
      by_cases hp : o.hasProto = true
      · rw [if_pos hp] at h
        simp only [Option.some.injEq, Prod.mk.injEq] at h
        obtain ⟨h1, h2, h3⟩ := h
        rw [← h1, ← h2, ← h3]
        rw [findMaterialize, if_pos hc, if_pos hp]
      · rw [if_neg hp] at h
        simp only [Option.some.injEq, Prod.mk.injEq] at h
        obtain ⟨h1, h2, h3⟩ := h
        rw [← h1, ← h2, ← h3]
        simp [findMaterialize, hc]
    · rw [findMaterialize, if_neg hc] at h
      cases hr : findMaterialize n rest with
      | none => rw [hr] at h; simp at h
      | some r =>
        rw [hr] at h
        simp only [Option.map_some', Option.some.injEq, Prod.mk.injEq] at h
        obtain ⟨h1, h2, h3⟩ := h
        rw [← h1, ← h2, ← h3]
        rw [findMaterialize, if_neg hc, ih _ _ _ _ hr]
        rfl

lemma findMaterialize_core (l : List FnObj) :
    ∀ (n p : Nat) (l2 : List FnObj) (n2 : Nat),
      findMaterialize n l = some (p, l2, n2) →
      l2.map fnCore = l.map fnCore := by
  induction l with
  | nil => intro n p l2 n2 h; simp [findMaterialize] at h
  | cons o rest ih =>
    intro n p l2 n2 h
    by_cases hc : (o.isFunction && o.shouldHaveProto) = true
    · rw [findMaterialize, if_pos hc] at h
      by_cases hp : o.hasProto = true
      · rw [if_pos hp] at h
        simp only [Option.some.injEq, Prod.mk.injEq] at h
        obtain ⟨h1, h2, h3⟩ := h
        subst h2; rfl
      · rw [if_neg hp] at h
        simp only [Option.some.injEq, Prod.mk.injEq] at h
        obtain ⟨h1, h2, h3⟩ := h
        subst h2
        simp [fnCore]
    · rw [findMaterialize, if_neg hc] at h
      cases hr : findMaterialize n rest with
      | none => rw [hr] at h; simp at h
      | some r =>
        rw [hr] at h
        simp only [Option.map_some', Option.some.injEq, Prod.mk.injEq] at h
        obtain ⟨h1, h2, h3⟩ := h
        subst h2
        simp [ih _ _ _ _ hr]

lemma findMaterialize_fresh (l : List FnObj) :
    ∀ (n p : Nat) (l2 : List FnObj) (n2 : Nat),
      findMaterialize n l = some (p, l2, n2) →
      (l2 = l ∧ n2 = n) ∨ (p = n ∧ n2 = n + 1) := by
  induction l with
  | nil => intro n p l2 n2 h; simp [findMaterialize] at h
  | cons o rest ih =>
    intro n p l2 n2 h
    by_cases hc : (o.isFunction && o.shouldHaveProto) = true
    · rw [findMaterialize, if_pos hc] at h
      by_cases hp : o.hasProto = true
      · rw [if_pos hp] at h
        simp only [Option.some.injEq, Prod.mk.injEq] at h
        exact .inl ⟨h.2.1.symm, h.2.2.symm⟩
      · rw [if_neg hp] at h
        simp only [Option.some.injEq, Prod.mk.injEq] at h
        exact .inr ⟨h.1.symm, h.2.2.symm⟩
    · rw [findMaterialize, if_neg hc] at h
      cases hr : findMaterialize n rest with
      | none => rw [hr] at h; simp at h
      | some r =>
        rw [hr] at h
        simp only [Option.map_some', Option.some.injEq, Prod.mk.injEq] at h
        obtain ⟨h1, h2, h3⟩ := h
        rcases ih _ _ _ _ hr with ⟨hl, hn⟩ | ⟨hpf, hn⟩
        · exact .inl ⟨by rw [← h2, hl], by rw [← h3, hn]⟩
        · exact .inr ⟨by rw [← h1, hpf], by rw [← h3, hn]⟩

lemma any_isFunction_congr (l : List FnObj) :
    ∀ (l2 : List FnObj), l2.map fnCore = l.map fnCore →
      l2.any (·.isFunction) = l.any (·.isFunction) := by
  induction l with
  | nil =>
    intro l2 h
    cases l2 with
    | nil => rfl
    | cons a t => simp at h
  | cons o rest ih =>
    intro l2 h
    cases l2 with
    | nil => simp at h
    | cons a t =>
      simp only [List.map_cons, List.cons.injEq] at h
      have ha : a.isFunction = o.isFunction := congrArg Prod.fst h.1
      simp [List.any_cons, ha, ih t h.2]

lemma functionGetLength_core (l : List LFn) :
    (FunctionGetLength l).2.map lenCore = l.map lenCore := by
  induction l with
  | nil => rfl
  | cons f rest ih =>
    by_cases hf : f.isFunction = true
    · rw [FunctionGetLength]
      rw [if_pos hf]
      by_cases hcmp : f.compiled = true
      · rw [if_pos hcmp]
      · rw [if_neg hcmp]
        by_cases hok : f.compileOk = true
        · rw [if_pos hok]; simp [lenCore, compileFn]
        · rw [if_neg hok]
    · rw [FunctionGetLength, if_neg hf]
      simp [ih]

lemma getSlot_of_le (l : List MSlot) : ∀ (i : Nat), l.length ≤ i →
    getSlot l i = .hole := by
  induction l with
  | nil => intro i h; cases i <;> rfl
  | cons x rest ih =>
    intro i h
    cases i with
    | zero => simp at h
    | succ j => exact ih j (Nat.le_of_succ_le_succ h)

lemma getSlot_setSlot_self (l : List MSlot) : ∀ (i : Nat) (s : MSlot),
    i < l.length → getSlot (setSlot l i s) i = s := by
  induction l with
  | nil => intro i s h; simp at h
  | cons x rest ih =>
    intro i s h
    cases i with
    | zero => rfl
    | succ j => exact ih j s (Nat.lt_of_succ_lt_succ h)

lemma lastIdxOf_eq_none (fid : Nat) (l : List Nat) (h : ¬ fid ∈ l) :
    lastIdxOf fid l = none := by
  induction l with
  | nil => rfl
  | cons x rest ih =>
    simp only [List.mem_cons, not_or] at h
    rw [lastIdxOf, ih h.2]
    simp only [if_neg (Ne.symm h.1)]

lemma argsFromFrame_none (fid : Nat) (fr : AFrame)
    (h : lastIdxOf fid fr.functions = none) : argsFromFrame fid fr = none := by
  rw [argsFromFrame, h]

lemma argsLoop_nullv (fid : Nat) (stack : List AFrame)
    (h : ∀ fr ∈ stack, argsFromFrame fid fr = none) :
    argsLoop fid stack = .nullv := by
  induction stack with
  | nil => rfl
  | cons fr rest ih =>
    rw [argsLoop, h fr (List.mem_cons_self fr rest)]
    exact ih (fun g hg => h g (List.mem_cons_of_mem fr hg))

/-- C1: on a true array receiver the length setter performs exactly two
coercions of the (flattened) value, in the fixed order unsigned-32-bit
coercion then generic-number coercion; when the two results are numerically
unequal it raises the range-violation error (not a type error) and leaves the
array's length unchanged; when they are equal it commits the coerced unsigned
value as the new length. -/
theorem arraySetLength_dual_coercion_contract (r : ArrReceiver) (v : JSVal)
    (h : r.isArray = true) :
    (ArraySetLength r v).2.2 =
      [.u32Op (FlattenNumber v), .numOp (FlattenNumber v)] ∧
    (numEq (toUint32 (FlattenNumber v)) (toNumber (FlattenNumber v)) = false →
      (ArraySetLength r v).1 = .thrown .rangeViolation ∧
      (ArraySetLength r v).2.1 = r) ∧
    (numEq (toUint32 (FlattenNumber v)) (toNumber (FlattenNumber v)) = true →
      (ArraySetLength r v).1 = .ok (u32OfNum (toNumber (FlattenNumber v))) ∧
      (ArraySetLength r v).2.1.length = u32OfNum (toNumber (FlattenNumber v))) := by
  refine ⟨arraySetLength_trace r v h, ?_, ?_⟩
  · intro hne
    simp [ArraySetLength, h, execToUint32, execToNumber, hne]
  · intro heq
    simp [ArraySetLength, h, execToUint32, execToNumber, heq]

/-- Witness for C1 at the spec's own example: setting the length of a
five-element array to 2.5 makes the two coercions disagree, raising the
range violation and leaving the length at 5. -/
theorem arraySetLength_dual_coercion_contract_witness :
    (ArrReceiver.mk true 5 none).isArray = true ∧
    (ArraySetLength ⟨true, 5, none⟩ (.num (.rat (mkRat 5 2)))).2.2 =
      [.u32Op (FlattenNumber (.num (.rat (mkRat 5 2)))),
       .numOp (FlattenNumber (.num (.rat (mkRat 5 2))))] ∧
    (ArraySetLength ⟨true, 5, none⟩ (.num (.rat (mkRat 5 2)))).1 =
      .thrown .rangeViolation ∧
    (ArraySetLength ⟨true, 5, none⟩ (.num (.rat (mkRat 5 2)))).2.1 =
      ⟨true, 5, none⟩ :=
  ⟨by decide,
   (arraySetLength_dual_coercion_contract ⟨true, 5, none⟩
     (.num (.rat (mkRat 5 2))) (by decide)).1,
   ((arraySetLength_dual_coercion_contract ⟨true, 5, none⟩
     (.num (.rat (mkRat 5 2))) (by decide)).2.1 (by decide)).1,
   ((arraySetLength_dual_coercion_contract ⟨true, 5, none⟩
     (.num (.rat (mkRat 5 2))) (by decide)).2.1 (by decide)).2⟩

/-- C2 counterexample: a non-array receiver whose prototype is an array of
length 5 — the getter walks the prototype chain and returns 5, not 0, so the
claim's universal "every receiver that is not of the required array kind gets
0" fails on the code. -/
theorem arrayGetLength_ancestor_cex :
    (ArrReceiver.mk false 0 none).isArray = false ∧
    ArrayGetLength [⟨false, 0, none⟩, ⟨true, 5, none⟩] = 5 ∧
    ArrayGetLength [⟨false, 0, none⟩, ⟨true, 5, none⟩] ≠ 0 := by decide

/-- C2 amended: the getter returns 0 when no object on the receiver's
prototype chain is an array (a non-array receiver with an array ancestor
yields the ancestor's length instead); the setter part stands as claimed — a
non-array receiver gets an ordinary own `length` data property, with no
recursive accessor call and no error. -/
theorem arrayLength_nonarray_receiver_amended (chain : List ArrReceiver)
    (r : ArrReceiver) (v : JSVal) :
    ((∀ o ∈ chain, o.isArray = false) → ArrayGetLength chain = 0) ∧
    (r.isArray = false →
      ArraySetLength r v =
        (.definedOwn v, { r with ownLengthProp := some v }, [])) := by
  constructor
  · intro hall
    rw [ArrayGetLength]
    have hf : chain.find? (·.isArray) = none := by
      rw [List.find?_eq_none]
      intro x hx
      simp [hall x hx]
    rw [hf]
  · intro hr
    simp [ArraySetLength, hr]

/-- Witness for the amended C2 at a chain with no array and at a non-array
setter receiver. -/
theorem arrayLength_nonarray_receiver_amended_witness :
    (∀ o ∈ [ArrReceiver.mk false 0 none], o.isArray = false) ∧
    ArrayGetLength [⟨false, 0, none⟩] = 0 ∧
    (ArrReceiver.mk false 7 none).isArray = false ∧
    ArraySetLength ⟨false, 7, none⟩ .other =
      (.definedOwn .other, ⟨false, 7, some .other⟩, []) :=
  ⟨by decide,
   (arrayLength_nonarray_receiver_amended [⟨false, 0, none⟩]
     ⟨false, 7, none⟩ .other).1 (by decide),
   by decide,
   (arrayLength_nonarray_receiver_amended [⟨false, 0, none⟩]
     ⟨false, 7, none⟩ .other).2 (by decide)⟩

/-- C3 counterexample: a non-constructible function receiver whose prototype
chain holds a constructible function with prototype object 7 — the getter
walks up to that ancestor and returns its prototype, not the undefined
sentinel, so the claim's "not constructible implies undefined on every read"
fails on the code. -/
theorem functionGetPrototype_walks_cex :
    (FnObj.mk true false false 0).isFunction = true ∧
    (FnObj.mk true false false 0).shouldHaveProto = false ∧
    FunctionGetPrototype ⟨[⟨true, false, false, 0⟩, ⟨true, true, true, 7⟩], 10⟩ =
      (.obj 7, ⟨[⟨true, false, false, 0⟩, ⟨true, true, true, 7⟩], 10⟩) ∧
    ProtoResult.obj 7 ≠ ProtoResult.undef := by decide

/-- C3 amended: when the receiver's chain holds no function the getter
returns the undefined sentinel; otherwise it returns the prototype of the
first constructible function on the chain (non-constructible functions are
skipped, and its internal assertion fails when no constructible one exists),
materializing a fresh prototype (the allocator's next id) on first read;
reads are idempotent — a second read returns the identical object and changes
no state. -/
theorem functionGetPrototype_lazy_amended (st st2 : ProtoState) (p : Nat) :
    (st.chain.any (·.isFunction) = false →
      FunctionGetPrototype st = (.undef, st)) ∧
    (FunctionGetPrototype st = (.obj p, st2) →
      FunctionGetPrototype st2 = (.obj p, st2)) ∧
    (FunctionGetPrototype st = (.obj p, st2) → st2 ≠ st →
      p = st.nextId ∧ st2.nextId = st.nextId + 1) := by
  refine ⟨?_, ?_, ?_⟩
  · intro h
    simp [FunctionGetPrototype, h]
  · intro h
    by_cases hany : st.chain.any (·.isFunction) = true
    · rw [FunctionGetPrototype, if_pos hany] at h
      cases hfm : findMaterialize st.nextId st.chain with
      | none => rw [hfm] at h; simp at h
      | some r =>
        rw [hfm] at h
        simp only [Prod.mk.injEq, ProtoResult.obj.injEq] at h
        obtain ⟨h1, h2⟩ := h
        rw [← h1, ← h2]
        have hstable := findMaterialize_stable st.chain st.nextId r.1 r.2.1 r.2.2
          (by rw [hfm])
        have hcore := findMaterialize_core st.chain st.nextId r.1 r.2.1 r.2.2
          (by rw [hfm])
        have hany2 : (r.2.1).any (·.isFunction) = true := by
          rw [any_isFunction_congr st.chain r.2.1 hcore, hany]
        simp [FunctionGetPrototype, hany2, hstable]
    · rw [FunctionGetPrototype, if_neg hany] at h
      simp at h
  · intro h hne
    by_cases hany : st.chain.any (·.isFunction) = true
    · rw [FunctionGetPrototype, if_pos hany] at h
      cases hfm : findMaterialize st.nextId st.chain with
      | none => rw [hfm] at h; simp at h
      | some r =>
        rw [hfm] at h
        simp only [Prod.mk.injEq, ProtoResult.obj.injEq] at h
        obtain ⟨h1, h2⟩ := h
        rcases findMaterialize_fresh st.chain st.nextId r.1 r.2.1 r.2.2
          (by rw [hfm]) with ⟨hl, hn⟩ | ⟨hpf, hn⟩
        · exact absurd (by rw [← h2, hl, hn]) hne
        · constructor
          · rw [← h1, hpf]
          · rw [← h2]; exact hn
    · rw [FunctionGetPrototype, if_neg hany] at h
      simp at h

/-- Witness for the amended C3: a functionless chain yields undefined; a
constructible function without prototype materializes id 100 on first read
and the second read returns the identical object with no state change,
consuming allocator id 100 and advancing the counter to 101. -/
theorem functionGetPrototype_lazy_amended_witness :
    (ProtoState.mk [⟨false, false, false, 0⟩] 0).chain.any (·.isFunction) = false ∧
    FunctionGetPrototype ⟨[⟨false, false, false, 0⟩], 0⟩ =
      (.undef, ⟨[⟨false, false, false, 0⟩], 0⟩) ∧
    FunctionGetPrototype ⟨[⟨true, true, false, 0⟩], 100⟩ =
      (.obj 100, ⟨[⟨true, true, true, 100⟩], 101⟩) ∧
    FunctionGetPrototype ⟨[⟨true, true, true, 100⟩], 101⟩ =
      (.obj 100, ⟨[⟨true, true, true, 100⟩], 101⟩) ∧
    (100 = (ProtoState.mk [⟨true, true, false, 0⟩] 100).nextId ∧
     (ProtoState.mk [⟨true, true, true, 100⟩] 101).nextId =
       (ProtoState.mk [⟨true, true, false, 0⟩] 100).nextId + 1) :=
  ⟨by decide,
   (functionGetPrototype_lazy_amended ⟨[⟨false, false, false, 0⟩], 0⟩
     ⟨[], 0⟩ 0).1 (by decide),
   by decide,
   (functionGetPrototype_lazy_amended ⟨[⟨true, true, false, 0⟩], 100⟩
     ⟨[⟨true, true, true, 100⟩], 101⟩ 100).2.1 (by decide),
   (functionGetPrototype_lazy_amended ⟨[⟨true, true, false, 0⟩], 100⟩
     ⟨[⟨true, true, true, 100⟩], 101⟩ 100).2.2 (by decide) (by decide)⟩

/-- C4: reading an uninitialized (hole) module export slot raises the named
reference error carrying the export's property name, never returning a value;
writing to it raises the same error and leaves the context unchanged; once a
slot is initialized, a write succeeds and a subsequent read returns the
stored value without error; and the accessor factory installs the setter only
when the attributes permit writing, while the getter is always installed. -/
theorem moduleExport_tdz_contract (slots : List MSlot) (i : Nat)
    (name : List Char) (v w : Nat) :
    (getSlot slots i = .hole →
      ModuleGetExport slots i name = .thrown (.refErr name) ∧
      ModuleSetExport slots i name v = (.thrown (.refErr name), slots)) ∧
    (getSlot slots i = .val w → ModuleGetExport slots i name = .ret w) ∧
    (getSlot slots i ≠ .hole →
      (ModuleSetExport slots i name v).1 = .ok ∧
      ModuleGetExport (ModuleSetExport slots i name v).2 i name = .ret v) ∧
    ((MakeModuleExport name i ⟨true⟩).hasSetter = false ∧
     (MakeModuleExport name i ⟨false⟩).hasSetter = true ∧
     (MakeModuleExport name i ⟨true⟩).hasGetter = true) := by
  refine ⟨?_, ?_, ?_, by simp [MakeModuleExport]⟩
  · intro h
    exact ⟨by simp [ModuleGetExport, h], by simp [ModuleSetExport, h]⟩
  · intro h
    simp [ModuleGetExport, h]
  · intro h
    cases hg : getSlot slots i with
    | hole => exact absurd hg h
    | val u =>
      have hlt : i < slots.length := by
        rcases Nat.lt_or_ge i slots.length with hlt | hge
        · exact hlt
        · rw [getSlot_of_le slots i hge] at hg; simp at hg
      refine ⟨by simp [ModuleSetExport, hg], ?_⟩
      simp [ModuleSetExport, hg, ModuleGetExport,
        getSlot_setSlot_self slots i _ hlt]

/-- Witness for C4 on a two-slot module context with slot 0 uninitialized
and slot 1 holding 4: the hole read throws the named error, the initialized
read returns 4, and after writing 9 the read-back returns 9. -/
theorem moduleExport_tdz_contract_witness :
    getSlot [MSlot.hole, MSlot.val 4] 0 = .hole ∧
    ModuleGetExport [MSlot.hole, MSlot.val 4] 0 ['x'] =
      .thrown (.refErr ['x']) ∧
    getSlot [MSlot.hole, MSlot.val 4] 1 = .val 4 ∧
    ModuleGetExport [MSlot.hole, MSlot.val 4] 1 ['x'] = .ret 4 ∧
    getSlot [MSlot.hole, MSlot.val 4] 1 ≠ .hole ∧
    ModuleGetExport (ModuleSetExport [MSlot.hole, MSlot.val 4] 1 ['x'] 9).2
      1 ['x'] = .ret 9 :=
  ⟨by decide,
   ((moduleExport_tdz_contract [MSlot.hole, MSlot.val 4] 0 ['x'] 9 4).1
     (by decide)).1,
   by decide,
   (moduleExport_tdz_contract [MSlot.hole, MSlot.val 4] 1 ['x'] 9 4).2.1
     (by decide),
   by decide,
   ((moduleExport_tdz_contract [MSlot.hole, MSlot.val 4] 1 ['x'] 9 4).2.2.1
     (by decide)).2⟩

/-- C5: when the function's innermost activation is found on the stack and
the caller the walk resolves is a bound function or a strict-mode function,
the caller getter returns the null sentinel instead of exposing it; the
getter has no error path. -/
theorem functionGetCaller_censor_null (chain stack : List CFn) (holder c : CFn)
    (h1 : findFn chain = some holder)
    (h2 : resolveCaller holder.id stack = some (some c))
    (h3 : c.bound = true ∨ c.strict = true) :
    FunctionGetCaller chain stack = .nullv := by
  simp only [FunctionGetCaller, h1]
  by_cases hn : holder.native = true
  · simp [hn]
  · rcases h3 with hb | hs
    · simp [hn, h2, hb]
    · by_cases hb2 : c.bound = true
      · simp [hn, h2, hb2]
      · simp [hn, h2, hb2, hs]

/-- Witness for C5: function 1 is on the stack and its resolved caller,
function 2, is bound; the getter returns null. -/
theorem functionGetCaller_censor_null_witness :
    findFn [⟨1, true, false, false, false, false, false⟩] =
      some ⟨1, true, false, false, false, false, false⟩ ∧
    resolveCaller 1
      [⟨1, true, false, false, false, false, false⟩,
       ⟨2, true, false, false, false, true, false⟩] =
      some (some ⟨2, true, false, false, false, true, false⟩) ∧
    FunctionGetCaller [⟨1, true, false, false, false, false, false⟩]
      [⟨1, true, false, false, false, false, false⟩,
       ⟨2, true, false, false, false, true, false⟩] = .nullv :=
  ⟨by decide, by decide,
   functionGetCaller_censor_null _ _
     ⟨1, true, false, false, false, false, false⟩
     ⟨2, true, false, false, false, true, false⟩
     (by decide) (by decide) (.inl (by decide))⟩

/-- C6: when no frame on the stack holds an activation of the function, the
arguments getter returns the null sentinel; its result type has no error
constructor because the source has no throw path. -/
theorem functionGetArguments_no_activation_null (chain : List AFn)
    (stack : List AFrame) (holder : AFn)
    (h1 : chain.find? (·.isFunction) = some holder)
    (h2 : ∀ fr ∈ stack, ¬ holder.id ∈ fr.functions) :
    FunctionGetArguments chain stack = .nullv := by
  simp only [FunctionGetArguments, h1]
  by_cases hn : holder.native = true
  · simp [hn]
  · have hl : argsLoop holder.id stack = .nullv :=
      argsLoop_nullv holder.id stack (fun fr hf =>
        argsFromFrame_none holder.id fr
          (lastIdxOf_eq_none holder.id fr.functions (h2 fr hf)))
    simp [hn, hl]

/-- Witness for C6: function 1 appears in no frame of a one-frame stack, so
the getter returns null. -/
theorem functionGetArguments_no_activation_null_witness :
    [AFn.mk 1 true false].find? (·.isFunction) = some ⟨1, true, false⟩ ∧
    (∀ fr ∈ [AFrame.mk [2, 3] false none [] [7]],
      ¬ (AFn.mk 1 true false).id ∈ fr.functions) ∧
    FunctionGetArguments [⟨1, true, false⟩]
      [⟨[2, 3], false, none, [], [7]⟩] = .nullv :=
  ⟨by decide, by decide,
   functionGetArguments_no_activation_null _ _ ⟨1, true, false⟩
     (by decide) (by decide)⟩

/-- C7: a write through an intentionally read-only accessor is silently
ignored — Accessors::ReadOnlySetAccessor (the setter of the read-only
function accessors) returns the written value and changes no state, and the
string-length and script-metadata setters (release-mode UNREACHABLE bodies)
raise no error and leave the stored value unchanged, as the unchanged getter
read-back shows. -/
theorem readOnlySetters_silent_noop (σ : Type) (st : σ) (r : JSVal)
    (s : ScriptSt) (v : JSVal) :
    ReadOnlySetAccessor σ st v = (v, st) ∧
    StringLengthSetter r v = (none, r) ∧
    StringLengthGetter (StringLengthSetter r v).2 = StringLengthGetter r ∧
    ScriptColumnOffsetSetter s v = (none, s) ∧
    ScriptColumnOffsetGetter (ScriptColumnOffsetSetter s v).2 =
      ScriptColumnOffsetGetter s :=
  ⟨rfl, rfl, rfl, rfl, rfl⟩

/-- C8 counterexample: the prototype getter on a constructible function with
no prototype yet mutates engine state that is not the line-ends cache — it
materializes the prototype on the function and advances the allocator — so
the claim's "every getter leaves all engine state other than the memoized
line-ends unchanged" fails on the code. -/
theorem getterPurity_prototype_cex :
    FunctionGetPrototype ⟨[⟨true, true, false, 0⟩], 100⟩ =
      (.obj 100, ⟨[⟨true, true, true, 100⟩], 101⟩) ∧
    ProtoState.mk [⟨true, true, true, 100⟩] 101 ≠
      ProtoState.mk [⟨true, true, false, 0⟩] 100 := by decide

/-- C8 amended: every getter is pure with respect to observable engine state
except for lazily initialized derived state — the memoized line-ends, the
first-read materialization of a constructible function's prototype, and the
on-demand compilation performed by the function length getter — and error
signaling: the prototype getter only ever writes prototype fields (never the
function/constructibility fields), the length getter only ever flips the
compiled flag, the line-ends getter changes only the cache and is idempotent,
and the plain field projections change nothing.  (ArrayGetLength,
FunctionGetName, StringLengthGetter, FunctionGetCaller and
FunctionGetArguments are stateless projections in this development: purity
is their type.) -/
theorem getters_pure_except_lazy_caches (st : ProtoState) (l : List LFn)
    (s : ScriptSt) :
    (FunctionGetPrototype st).2.chain.map fnCore = st.chain.map fnCore ∧
    (FunctionGetLength l).2.map lenCore = l.map lenCore ∧
    (ScriptLineEndsGetter s).2.source = s.source ∧
    (ScriptLineEndsGetter s).2.id = s.id ∧
    (ScriptLineEndsGetter s).2.columnOffset = s.columnOffset ∧
    ScriptLineEndsGetter (ScriptLineEndsGetter s).2 = ScriptLineEndsGetter s ∧
    (ScriptColumnOffsetGetter s).2 = s ∧
    (ScriptIdGetter s).2 = s := by
  refine ⟨?_, functionGetLength_core l, ?_, ?_, ?_, ?_, rfl, rfl⟩
  · rw [FunctionGetPrototype]
    by_cases hany : st.chain.any (·.isFunction) = true
    · rw [if_pos hany]
      cases hfm : findMaterialize st.nextId st.chain with
      | none => rfl
      | some r =>
        exact findMaterialize_core st.chain st.nextId r.1 r.2.1 r.2.2
          (by rw [hfm])
    · rw [if_neg hany]
  · cases hle : s.lineEnds <;> simp [ScriptLineEndsGetter, InitLineEnds, hle]
  · cases hle : s.lineEnds <;> simp [ScriptLineEndsGetter, InitLineEnds, hle]
  · cases hle : s.lineEnds <;> simp [ScriptLineEndsGetter, InitLineEnds, hle]
  · cases hle : s.lineEnds <;> simp [ScriptLineEndsGetter, InitLineEnds, hle]

/-- C9: on a true array receiver a Number wrapper carrying the initial
Number map is flattened to its primitive before the two coercions, so both
coercions operate on the primitive; any value that is not such a wrapper is
passed to both coercions unchanged. -/
theorem flattenNumber_before_coercions (r : ArrReceiver) (n : JSNum)
    (v : JSVal) (h : r.isArray = true) :
    (ArraySetLength r (.jsvalue true (.num n))).2.2 =
      [.u32Op (.num n), .numOp (.num n)] ∧
    (isInitialNumberWrapper v = false →
      (ArraySetLength r v).2.2 = [.u32Op v, .numOp v]) := by
  constructor
  · exact arraySetLength_trace r (.jsvalue true (.num n)) h
  · intro hv
    have ht := arraySetLength_trace r v h
    rw [flattenNumber_eq_self v hv] at ht
    exact ht

/-- Witness for C9: a wrapped 3 is coerced as the primitive 3; the plain
string receiver-value is coerced as itself. -/
theorem flattenNumber_before_coercions_witness :
    (ArrReceiver.mk true 5 none).isArray = true ∧
    (ArraySetLength ⟨true, 5, none⟩
      (.jsvalue true (.num (.rat (mkRat 3 1))))).2.2 =
      [.u32Op (.num (.rat (mkRat 3 1))), .numOp (.num (.rat (mkRat 3 1)))] ∧
    isInitialNumberWrapper (JSVal.str ['a']) = false ∧
    (ArraySetLength ⟨true, 5, none⟩ (.str ['a'])).2.2 =
      [.u32Op (.str ['a']), .numOp (.str ['a'])] :=
  ⟨by decide,
   (flattenNumber_before_coercions ⟨true, 5, none⟩ (.rat (mkRat 3 1))
     (.str ['a']) (by decide)).1,
   by decide,
   (flattenNumber_before_coercions ⟨true, 5, none⟩ (.rat (mkRat 3 1))
     (.str ['a']) (by decide)).2 (by decide)⟩

/-- C10: the string length getter unwraps a wrapper object and returns the
wrapped string's length; a receiver that is not a string after unwrapping
yields 0 — no coercion and no error. -/
theorem stringLengthGetter_contract (b : Bool) (s : List Char) (v : JSVal) :
    StringLengthGetter (.jsvalue b (.str s)) = s.length ∧
    ((unwrapJSValue v).isString = false → StringLengthGetter v = 0) := by
  constructor
  · rfl
  · intro h
    rw [StringLengthGetter]
    cases hv : unwrapJSValue v with
    | num n => rfl
    | str t => rw [hv] at h; simp [JSVal.isString] at h
    | jsvalue m i => rfl
    | other => rfl

/-- Witness for C10: a wrapped two-character string has length 2; a numeric
receiver yields 0. -/
theorem stringLengthGetter_contract_witness :
    StringLengthGetter (.jsvalue false (.str ['a', 'b'])) = 2 ∧
    (unwrapJSValue (JSVal.num (.rat (mkRat 1 1)))).isString = false ∧
    StringLengthGetter (.num (.rat (mkRat 1 1))) = 0 :=
  ⟨(stringLengthGetter_contract false ['a', 'b']
     (.num (.rat (mkRat 1 1)))).1,
   by decide,
   (stringLengthGetter_contract false ['a', 'b']
     (.num (.rat (mkRat 1 1)))).2 (by decide)⟩